import Mathlib

/-!
# File server and forwarding proxy

A shallow embedding of `Main Server/server.go` and `Proxy Server/proxy.go`.

* A Go `string` (and a `[]byte`) is the list of its bytes, each byte a natural number.
* A connection, the filesystem, the calls made on the filesystem and the diagnostics printed
  are an explicit state that every function takes and returns.
* A handler returns `none` when the Go code stops with a run-time panic.
* The two listener loops are transition systems over the events of the loop and of the
  goroutines it starts.

The Go standard library is not part of the repository; the few functions of it that the
code calls (`strings.Contains`, `strings.ToLower`, `filepath.Ext`, `fmt.Sprintf`, `net.Conn`,
`os.Open`, `os.Create`, `io.Copy`, `http.ReadRequest`) are modelled from their documentation,
each next to the place that uses it.
-/

/-! ## Go strings -/

/-- A Go string: a sequence of bytes. -/
abbrev GoString := List Nat

/-- The bytes of a string literal of the source. All literals of the source are ASCII, so
the code point of each character is its single byte. -/
def str (s : String) : GoString := s.toList.map Char.toNat

/-- Formatting of a non-negative integer by the verb `%d`. -/
def fmtInt (n : Nat) : GoString := (Nat.toDigits 10 n).map Char.toNat

/-- The slice expression `s[i:]`: `none` is the run-time panic "slice bounds out of range",
raised when `i` exceeds `len(s)`. -/
def sliceFrom (s : GoString) (i : Nat) : Option GoString :=
  if i ≤ s.length then some (s.drop i) else none

namespace strings

/-- Go `strings.HasPrefix`: `s` begins with `p`. -/
def startsWith : GoString → GoString → Bool
  | _, [] => true
  | [], _ :: _ => false
  | c :: s, d :: p => c == d && startsWith s p

/-- Go `strings.Contains`: `sub` occurs in `s` at some byte offset. -/
def Contains : GoString → GoString → Bool
  | [], sub => startsWith [] sub
  | c :: s, sub => startsWith (c :: s) sub || Contains s sub

/-- Lower-casing of one ASCII byte: `A`..`Z` become `a`..`z`, other bytes are kept. -/
def lowerByte (b : Nat) : Nat := if 65 ≤ b ∧ b ≤ 90 then b + 32 else b

/-- Go `strings.ToLower`. The function maps `unicode.ToLower` over the runes of the string.
An ASCII byte is lower-cased by `lowerByte`. Exactly two runes outside ASCII have an ASCII
lower case: U+0130 (bytes C4 B0), which becomes `i`, and U+212A (bytes E2 84 AA), which
becomes `k`. Every other byte from 0x80 up belongs to a rune whose image is again outside
ASCII; the model keeps such a byte as it is, which is all that a comparison of the result
with ASCII text (the only use the server makes of it) can observe. -/
def ToLower : GoString → GoString
  | b0 :: b1 :: b2 :: s =>
      if b0 = 0xE2 ∧ b1 = 0x84 ∧ b2 = 0xAA then 0x6B :: ToLower s
      else if b0 = 0xC4 ∧ b1 = 0xB0 then 0x69 :: ToLower (b2 :: s)
      else lowerByte b0 :: ToLower (b1 :: b2 :: s)
  | [b0, b1] =>
      if b0 = 0xC4 ∧ b1 = 0xB0 then [0x69] else lowerByte b0 :: ToLower [b1]
  | [b0] => [lowerByte b0]
  | [] => []

end strings

namespace filepath

/-- The loop of Go `filepath.Ext` (Unix): `rev` holds `path[0..i]` reversed, so its head is
`path[i]`, and `acc` is `path[i+1:]`. The loop walks `i` downwards, stops with the empty
string at a separator `/` (byte 47) and returns `path[i:]` at the first `.` (byte 46). -/
def extScan : GoString → GoString → GoString
  | [], _ => []
  | c :: rev, acc =>
      if c = 47 then []
      else if c = 46 then c :: acc
      else extScan rev (c :: acc)

/-- Go `filepath.Ext`: the suffix beginning at the final dot in the final element of the
path; empty if there is no dot. -/
def Ext (path : GoString) : GoString := extScan path.reverse []

end filepath

/-- Swapping the case of one byte: an ASCII capital becomes the small letter, an ASCII small
letter the capital, any other byte is kept. -/
def swapCase (b : Nat) : Nat :=
  if 65 ≤ b ∧ b ≤ 90 then b + 32 else if 97 ≤ b ∧ b ≤ 122 then b - 32 else b

/-- The relation `CaseRel a b`: the byte `b` is the byte `a`, kept or with its case swapped. -/
def CaseRel (a b : Nat) : Prop := b = a ∨ b = swapCase a

/-- The relation `CaseVariant p q`: the string `q` is `p` with the case of some of its ASCII letters
changed. -/
inductive CaseVariant : GoString → GoString → Prop
  | nil : CaseVariant [] []
  | keep (b : Nat) {p q : GoString} : CaseVariant p q → CaseVariant (b :: p) (b :: q)
  | flip (b : Nat) {p q : GoString} : CaseVariant p q → CaseVariant (b :: p) (swapCase b :: q)

/-- The body of a response: everything after the first empty line, that is after the first
occurrence of CR LF CR LF. `none` when the bytes hold no empty line. -/
def bodyOf : GoString → Option GoString
  | [] => none
  | c :: s => if strings.startsWith (c :: s) [13, 10, 13, 10] then some (s.drop 3) else bodyOf s

/-- The status code of a response: the decimal number between the first and the second
space of the bytes, as three digits. `none` when the bytes do not start that way. -/
def statusCodeOf (resp : GoString) : Option Nat :=
  match resp.dropWhile (fun b => b != 32) with
  | 32 :: d1 :: d2 :: d3 :: 32 :: _ =>
      if 48 ≤ d1 ∧ d1 ≤ 57 ∧ 48 ≤ d2 ∧ d2 ≤ 57 ∧ 48 ≤ d3 ∧ d3 ≤ 57 then
        some ((d1 - 48) * 100 + (d2 - 48) * 10 + (d3 - 48))
      else none
  | _ => none

/-! ## Constants of `net/http` -/

def StatusOK : Nat := 200
def StatusBadRequest : Nat := 400
def StatusNotFound : Nat := 404
def StatusInternalServerError : Nat := 500
def StatusNotImplemented : Nat := 501
def MethodGet : GoString := str "GET"

/-! ## Connections -/

/-- A `net.Conn` as the handler sees it. The peer accepts a number of writes in full; the
write after them is the one on which the connection breaks: it fails, having delivered only
some first bytes, and every later write fails delivering nothing. -/
structure Conn where
  /-- The bytes delivered to the peer so far, in order. -/
  out : GoString
  /-- Whether `Close` has been called. -/
  closed : Bool
  /-- The number of further writes the peer accepts in full before the connection breaks. -/
  budget : Nat
  /-- The number of bytes still delivered of the write on which the connection breaks. -/
  slack : Nat

/-- The method `conn.Write`: the connection after the call, and whether `err == nil`. -/
def Conn.Write (c : Conn) (data : GoString) : Conn × Bool :=
  if c.closed = false ∧ 0 < c.budget then
    ({ c with out := c.out ++ data, budget := c.budget - 1 }, true)
  else if c.closed = false then
    ({ c with out := c.out ++ data.take c.slack, slack := 0 }, false)
  else (c, false)

/-- The method `conn.Close`. -/
def Conn.Close (c : Conn) : Conn := { c with closed := true }

/-- A connection just accepted: nothing written, open, the peer accepting `n` writes and
nothing of the write after them. -/
def Conn.fresh (n : Nat) : Conn := { out := [], closed := false, budget := n, slack := 0 }

/-! ## Requests -/

/-- The body of a request, an `io.Reader`: it yields `data` and then ends, with end of
stream when `err` is false and with a read error when `err` is true. -/
structure Body where
  data : GoString
  err : Bool
  deriving DecidableEq

/-- The fields of `http.Request` that the handlers read. -/
structure Request where
  Method : GoString
  /-- The field `req.URL.Path`. -/
  Path : GoString
  Body : Body
  deriving DecidableEq

/-- The error of a failed `http.ReadRequest`: `io.EOF`, or any other error. -/
inductive ReadErr
  | EOF
  | other
  deriving DecidableEq

/-- The result of `http.ReadRequest`. -/
abbrev ReadResult := Except ReadErr Request

/-! ## The filesystem -/

/-- What a name denotes in the filesystem. -/
inductive Node
  /-- A regular file and its content. -/
  | file (content : GoString)
  /-- A directory, with the size its metadata reports. -/
  | dir (size : Nat)
  /-- A name that exists and that this process may neither open nor truncate. -/
  | denied

/-- A filesystem state. -/
structure FS where
  /-- The node at each name, `none` when the name does not exist. -/
  node : GoString → Option Node
  /-- Whether a name that does not exist can be created. -/
  creatable : GoString → Bool

/-- An open `*os.File`. The size that the metadata reports and the bytes that reading
yields are separate: they agree on a regular file that nobody writes between `Stat` and the
read, and differ on a directory, which reports a size and yields no byte. -/
structure File where
  path : GoString
  /-- The value of `Size()` on what `Stat` returns. -/
  size : Nat
  /-- The bytes that reading the handle yields before end of file or a read error. -/
  content : GoString
  /-- Whether `Stat` succeeds on the handle. -/
  statOk : Bool

/-- The error of a failed `os.Open`, told apart by `os.IsNotExist`. -/
inductive OpenErr
  | notExist
  | other

/-- The calls made on the filesystem, each with its outcome. -/
inductive FsOp
  | osOpen (path : GoString) (ok : Bool)
  | osCreate (path : GoString) (ok : Bool)
  | fileStat (path : GoString) (ok : Bool)
  | fileRead (path : GoString)
  | fileWrite (path : GoString) (data : GoString) (ok : Bool)
  | fileClose (path : GoString)
  deriving DecidableEq

/-- The lines the program prints on its standard output. -/
inductive LogMsg
  | errorReadingRequest
  | errorSendingErrorResponse
  | errorGettingFileInfo
  | errorSendingGETResponse
  | errorSendingPOSTResponse
  | errorReadingRequestFromClient
  | errorSendingServerResponse
  | errorConnectingToTargetServer
  | errorWritingRequestToServer
  | errorReadingResponseFromServer
  deriving DecidableEq

/-- The state a handler of the file server works on. -/
structure St where
  conn : Conn
  fs : FS
  /-- The filesystem calls made so far, oldest first. -/
  ops : List FsOp
  /-- The diagnostics printed so far, oldest first. -/
  log : List LogMsg

/-- Printing one diagnostic. -/
def St.print (st : St) (m : LogMsg) : St := { st with log := st.log ++ [m] }

/-- Go `os.Open`, which opens a regular file and a directory alike. -/
def osOpen (st : St) (path : GoString) : St × Except OpenErr File :=
  match st.fs.node path with
  | some (Node.file c) =>
      ({ st with ops := st.ops ++ [FsOp.osOpen path true] },
        Except.ok { path := path, size := c.length, content := c, statOk := true })
  | some (Node.dir n) =>
      ({ st with ops := st.ops ++ [FsOp.osOpen path true] },
        Except.ok { path := path, size := n, content := [], statOk := true })
  | some Node.denied =>
      ({ st with ops := st.ops ++ [FsOp.osOpen path false] }, Except.error OpenErr.other)
  | none =>
      ({ st with ops := st.ops ++ [FsOp.osOpen path false] }, Except.error OpenErr.notExist)

/-- Go `os.Create`: creates the named file or truncates it; the flag tells whether
`err == nil`. -/
def osCreate (st : St) (path : GoString) : St × Bool :=
  let truncated : FS := { st.fs with node := Function.update st.fs.node path (some (Node.file [])) }
  match st.fs.node path with
  | some (Node.file _) =>
      ({ st with fs := truncated, ops := st.ops ++ [FsOp.osCreate path true] }, true)
  | some (Node.dir _) =>
      ({ st with ops := st.ops ++ [FsOp.osCreate path false] }, false)
  | some Node.denied =>
      ({ st with ops := st.ops ++ [FsOp.osCreate path false] }, false)
  | none =>
      if st.fs.creatable path then
        ({ st with fs := truncated, ops := st.ops ++ [FsOp.osCreate path true] }, true)
      else ({ st with ops := st.ops ++ [FsOp.osCreate path false] }, false)

/-- The call `io.Copy(file, req.Body)`: the bytes the body yields are appended to the file;
the flag tells whether `err == nil`, which is when the body ended with end of stream. -/
def copyBodyToFile (st : St) (path : GoString) (body : Body) : St × Bool :=
  let cur : GoString :=
    match st.fs.node path with
    | some (Node.file c) => c
    | _ => []
  ({ st with
      fs := { st.fs with node := Function.update st.fs.node path (some (Node.file (cur ++ body.data))) },
      ops := st.ops ++ [FsOp.fileWrite path body.data (!body.err)] },
    !body.err)

/-- The method `file.Close`. -/
def fileClose (st : St) (path : GoString) : St :=
  { st with ops := st.ops ++ [FsOp.fileClose path] }

/-- The call `io.Copy(conn, file)`, whose result the caller drops: the bytes that the handle
yields are read and written to the connection; a handle that yields none causes no write. -/
def copyFileToConn (st : St) (f : File) : St :=
  let st1 : St := { st with ops := st.ops ++ [FsOp.fileRead f.path] }
  if f.content = [] then st1 else { st1 with conn := (st1.conn.Write f.content).1 }

/-! ## Concrete states -/

/-- A filesystem with no name in it, in which every name can be created. -/
def emptyFS : FS := { node := fun _ => none, creatable := fun _ => true }

/-- A handler state at the start of an exchange: a fresh connection whose peer accepts
five writes, the empty filesystem, no call made and nothing printed. -/
def idleSt : St := { conn := Conn.fresh 5, fs := emptyFS, ops := [], log := [] }

/-- An open file "a.txt" that holds the five bytes of "hello". -/
def helloFile : File :=
  { path := str "a.txt", size := 5, content := str "hello", statOk := true }

/-- An open handle of a directory "d.txt": its metadata reports 4096 bytes and reading it
yields no byte. -/
def dirHandle : File := { path := str "d.txt", size := 4096, content := [], statOk := true }

/-- A filesystem in which "d.txt" is a directory and no other name exists. -/
def dirFS : FS :=
  { node := fun p => if p = str "d.txt" then some (Node.dir 4096) else none,
    creatable := fun _ => true }

/-- The state `idleSt` on the filesystem `dirFS`. -/
def dirSt : St := { conn := Conn.fresh 5, fs := dirFS, ops := [], log := [] }

/-- A GET of "/d.txt". -/
def getDir : Request :=
  { Method := str "GET", Path := str "/d.txt", Body := { data := [], err := false } }

/-- A filesystem in which "a.txt" holds the three bytes of "old" and no other name exists. -/
def oldFS : FS :=
  { node := fun p => if p = str "a.txt" then some (Node.file (str "old")) else none,
    creatable := fun _ => true }

/-- The state `idleSt` on the filesystem `oldFS`. -/
def oldSt : St := { conn := Conn.fresh 5, fs := oldFS, ops := [], log := [] }

/-- A POST of the five bytes of "hello" to "/a.txt". -/
def postHello : Request :=
  { Method := str "POST", Path := str "/a.txt", Body := { data := str "hello", err := false } }

/-- A POST of the five bytes of "hello" to "/x.bin". -/
def postBin : Request :=
  { Method := str "POST", Path := str "/x.bin", Body := { data := str "hello", err := false } }

/-- A GET of "/a.txt". -/
def getHello : Request :=
  { Method := str "GET", Path := str "/a.txt", Body := { data := [], err := false } }

/-! ## The file server -/

namespace Server

/-- Maximum limit of accepting client request at a time. -/
def maxConnection : Nat := 10

/-- The function `getContentType` of the server. -/
def getContentType (resource_path : GoString) : GoString :=
  let extension := strings.ToLower (filepath.Ext resource_path)
  if extension = str ".html" then str "text/html"
  else if extension = str ".txt" then str "text/plain"
  else if extension = str ".gif" then str "image/gif"
  else if extension = str ".jpeg" ∨ extension = str ".jpg" then str "image/jpeg"
  else if extension = str ".css" then str "text/css"
  else str "application/octet-stream"

/-- The function `sendErrorResponse` of the server. -/
def sendErrorResponse (st : St) (statusCode : Nat) (statusNotification : GoString) : St :=
  let response := str "HTTP/1.1 " ++ fmtInt statusCode ++ str " " ++ statusNotification
    ++ str "\r\n\r\n" ++ statusNotification
  let w := st.conn.Write response
  if w.2 then { st with conn := w.1 }
  else { ({ st with conn := w.1 } : St).print LogMsg.errorSendingErrorResponse with conn := w.1.Close }

/-- The function `sendContentErrorResponse` of the server. -/
def sendContentErrorResponse (st : St) (statusCode : Nat) (contentType : GoString)
    (statusNotification : GoString) : St :=
  let response := str "HTTP/1.1 " ++ fmtInt statusCode ++ str " " ++ statusNotification
    ++ str "\r\n\r\nContent_Type: " ++ contentType ++ str "\r\n\r\n" ++ statusNotification
  let w := st.conn.Write response
  if w.2 then { st with conn := w.1 }
  else { ({ st with conn := w.1 } : St).print LogMsg.errorSendingErrorResponse with conn := w.1.Close }

/-- The header block that `sendGETResponse` and `sendPostResponse` build. -/
def okHeader (statusCode : Nat) (content_type : GoString) (length : Nat) : GoString :=
  str "HTTP/1.1 " ++ fmtInt statusCode ++ str " OK\r\n"
    ++ (str "Content-Type: " ++ content_type ++ str "\r\n")
    ++ (str "Content-Length: " ++ fmtInt length ++ str "\r\n")
    ++ str "Server: Go\r\n"
    ++ str "Connection: close\r\n"
    ++ str "\r\n"

/-- The function `sendGETResponse` of the server. -/
def sendGETResponse (st : St) (statusCode : Nat) (content_type : GoString)
    (requested_file : File) : St :=
  let st0 : St := { st with ops := st.ops ++ [FsOp.fileStat requested_file.path requested_file.statOk] }
  if requested_file.statOk = false then
    sendErrorResponse (st0.print LogMsg.errorGettingFileInfo) StatusInternalServerError
      (str "Internal Server Error")
  else
    let response := okHeader statusCode content_type requested_file.size
    let w := st0.conn.Write response
    let st1 : St :=
      if w.2 then { st0 with conn := w.1 }
      else { ({ st0 with conn := w.1 } : St).print LogMsg.errorSendingGETResponse with conn := w.1.Close }
    copyFileToConn st1 requested_file

/-- The function `sendPostResponse` of the server. -/
def sendPostResponse (st : St) (statusCode : Nat) (contentType : GoString)
    (message : GoString) : St :=
  let response := okHeader statusCode contentType message.length
  let w := st.conn.Write response
  let st1 : St :=
    if w.2 then { st with conn := w.1 }
    else { ({ st with conn := w.1 } : St).print LogMsg.errorSendingPOSTResponse with conn := w.1.Close }
  let w2 := st1.conn.Write message
  if w2.2 then { st1 with conn := w2.1 }
  else { ({ st1 with conn := w2.1 } : St).print LogMsg.errorSendingPOSTResponse with conn := w2.1.Close }

/-- The function `handleGetRequest` of the server; `none` is the panic of `req.URL.Path[1:]`. -/
def handleGetRequest (st : St) (req : Request) : Option St :=
  match sliceFrom req.Path 1 with
  | none => none
  | some resourcePath =>
    let contentType := getContentType resourcePath
    if strings.Contains resourcePath (str "..") then
      some (sendContentErrorResponse st StatusBadRequest contentType (str "Bad Request"))
    else if contentType = str "application/octet-stream" then
      some (sendContentErrorResponse st StatusBadRequest contentType (str "Bad Request"))
    else
      match osOpen st resourcePath with
      | (st1, Except.error OpenErr.notExist) =>
          some (sendContentErrorResponse st1 StatusNotFound contentType (str "Not Found"))
      | (st1, Except.error OpenErr.other) =>
          some (sendErrorResponse st1 StatusInternalServerError (str "Internal Server Error"))
      | (st1, Except.ok requestedFile) =>
          some (fileClose (sendGETResponse st1 StatusOK contentType requestedFile) requestedFile.path)

/-- The function `handlePostRequest` of the server; `none` is the panic of
`req.URL.Path[1:]`. -/
def handlePostRequest (st : St) (req : Request) : Option St :=
  match sliceFrom req.Path 1 with
  | none => none
  | some resourcePath =>
    let contentType := getContentType resourcePath
    if strings.Contains req.Path (str "..") then
      some (sendContentErrorResponse st StatusBadRequest contentType (str "Bad Request"))
    else if contentType = str "application/octet-stream" then
      some (sendContentErrorResponse st StatusBadRequest contentType (str "Bad Request"))
    else
      match osCreate st resourcePath with
      | (st1, false) =>
          some (sendErrorResponse st1 StatusInternalServerError (str "Internal Server Error"))
      | (st1, true) =>
          match copyBodyToFile st1 resourcePath req.Body with
          | (st2, false) =>
              some (fileClose
                (sendErrorResponse st2 StatusInternalServerError (str "Internal Server Error"))
                resourcePath)
          | (st2, true) =>
              some (fileClose
                (sendPostResponse st2 StatusOK contentType (str "File uploaded successfully."))
                resourcePath)

/-- The function `handleRequest` of the server, given what `http.ReadRequest` returned. The
deferred `conn.Close()` runs when the function returns. -/
def handleRequest (st : St) (r : ReadResult) : Option St :=
  let res : Option St :=
    match r with
    | Except.error e =>
        let st1 := if e ≠ ReadErr.EOF then st.print LogMsg.errorReadingRequest else st
        some (sendErrorResponse st1 StatusBadRequest (str "Bad Request"))
    | Except.ok req =>
        if req.Method = str "GET" then handleGetRequest st req
        else if req.Method = str "POST" then handlePostRequest st req
        else some (sendErrorResponse st StatusNotImplemented (str "Not Implemented"))
  res.map (fun s => { s with conn := s.conn.Close })

/-- The state after `handlePostRequest` ran on `oldSt` and `postHello`. -/
def storedSt : St :=
  match handlePostRequest oldSt postHello with
  | some s => s
  | none => oldSt

/-! ### The listener loop of the server -/

/-- Where the loop of `main` stands: before `listener.Accept()`, before the send
`semaphore <- struct{}{}`, or before the `go` statement. -/
inductive Pc
  | accept
  | acquire
  | spawn
  deriving DecidableEq

/-- The state of the listener loop and of the goroutines it started. -/
structure Listener where
  pc : Pc
  /-- The number of elements in the channel `semaphore`: the slots held. -/
  sem : Nat
  /-- The goroutines that are inside `handleRequest`. -/
  handling : Nat
  /-- The goroutines whose `handleRequest` returned and that have not yet received from
  `semaphore`. -/
  returned : Nat
  deriving DecidableEq

/-- The steps of the loop and of the goroutines. A panic inside a handler ends the whole
process, so no state follows it and the transition system has no step for it. -/
inductive Event
  /-- `listener.Accept()` returns a connection. -/
  | acceptOk
  /-- `listener.Accept()` returns an error; the loop continues. -/
  | acceptErr
  /-- The send `semaphore <- struct{}{}` completes (followed by `wg.Add(1)`). -/
  | acquire
  /-- The `go` statement starts the goroutine, which enters `handleRequest`. -/
  | spawn
  /-- `handleRequest` returns in one goroutine. -/
  | handlerReturns
  /-- The receive `<-semaphore` completes in one goroutine (followed by `wg.Done()`). -/
  | release
  deriving DecidableEq

/-- One step; `none` when the event is not enabled in the state. A send on the buffered
channel is enabled only while the channel holds fewer than its capacity `maxConnection`,
a receive only while it holds an element. -/
def step (s : Listener) : Event → Option Listener
  | Event.acceptOk => if s.pc = Pc.accept then some { s with pc := Pc.acquire } else none
  | Event.acceptErr => if s.pc = Pc.accept then some s else none
  | Event.acquire =>
      if s.pc = Pc.acquire ∧ s.sem < maxConnection then
        some { s with pc := Pc.spawn, sem := s.sem + 1 }
      else none
  | Event.spawn =>
      if s.pc = Pc.spawn then some { s with pc := Pc.accept, handling := s.handling + 1 }
      else none
  | Event.handlerReturns =>
      if 0 < s.handling then
        some { s with handling := s.handling - 1, returned := s.returned + 1 }
      else none
  | Event.release =>
      if 0 < s.returned ∧ 0 < s.sem then
        some { s with returned := s.returned - 1, sem := s.sem - 1 }
      else none

/-- The state in which the loop starts: an empty channel and no goroutine. -/
def init : Listener := { pc := Pc.accept, sem := 0, handling := 0, returned := 0 }

/-- Running a sequence of events; `none` when one of them is not enabled. -/
def run : Listener → List Event → Option Listener
  | s, [] => some s
  | s, e :: es => (step s e).bind (fun s1 => run s1 es)

/-- The events of letting `n` connections in, one after the other: each is accepted, acquires a slot and
has its handler started. -/
def dispatchMany : Nat → List Event
  | 0 => []
  | n + 1 => Event.acceptOk :: Event.acquire :: Event.spawn :: dispatchMany n

end Server

/-! ## The proxy -/

namespace Proxy

/-- What the upstream does during one exchange. -/
structure Upstream where
  /-- Whether `net.Dial` succeeds. -/
  dialOk : Bool
  /-- Whether `req.Write(serverConn)` succeeds. -/
  writeOk : Bool
  /-- The response `http.ReadResponse` parsed, as the successive pieces (status line,
  header lines, empty line, pieces of the body) that `serverResponse.Write` writes, each by
  a write of its own; `none` when reading the response failed. -/
  response : Option (List GoString)

/-- The calls made on the upstream, each with its outcome. -/
inductive UpOp
  | dial (addr : GoString) (ok : Bool)
  | writeRequest (req : Request) (ok : Bool)
  | readResponse (ok : Bool)
  | close
  deriving DecidableEq

/-- The state a handler of the proxy works on. -/
structure PSt where
  client : Conn
  /-- The calls made on the upstream so far, oldest first. -/
  up : List UpOp
  /-- The diagnostics printed so far, oldest first. -/
  log : List LogMsg

/-- Printing one diagnostic. -/
def PSt.print (st : PSt) (m : LogMsg) : PSt := { st with log := st.log ++ [m] }

/-- Recording one call on the upstream. -/
def PSt.call (st : PSt) (o : UpOp) : PSt := { st with up := st.up ++ [o] }

/-- The function `sendErrorResponse` of the proxy. -/
def sendErrorResponse (st : PSt) (statusCode : Nat) (statusNotification : GoString) : PSt :=
  let response := str "HTTP/1.1 " ++ fmtInt statusCode ++ str " " ++ statusNotification
    ++ str "\r\n\r\n" ++ statusNotification
  let w := st.client.Write response
  if w.2 then { st with client := w.1 }
  else { ({ st with client := w.1 } : PSt).print LogMsg.errorSendingServerResponse with
    client := w.1.Close }

/-- The call `serverResponse.Write(clientConn)`, whose result the caller drops: the pieces
are written one after the other and the first write that fails ends the call, so the client
holds some first part of the response when its connection breaks on the way. -/
def relay (c : Conn) : List GoString → Conn
  | [] => c
  | piece :: rest => if (c.Write piece).2 then relay (c.Write piece).1 rest else (c.Write piece).1

/-- The function `handleGetRequest` of the proxy. The deferred `serverConn.Close()` runs on
every return after a successful dial. -/
def handleGetRequest (st : PSt) (req : Request) (serverURL : GoString) (env : Upstream) : PSt :=
  if env.dialOk = false then
    (st.call (UpOp.dial serverURL false)).print LogMsg.errorConnectingToTargetServer
  else
    let st1 := st.call (UpOp.dial serverURL true)
    if env.writeOk = false then
      (((st1.call (UpOp.writeRequest req false)).print LogMsg.errorWritingRequestToServer).call
        UpOp.close)
    else
      let st2 := st1.call (UpOp.writeRequest req true)
      match env.response with
      | none =>
          (((st2.call (UpOp.readResponse false)).print LogMsg.errorReadingResponseFromServer).call
            UpOp.close)
      | some pieces =>
          let st3 := st2.call (UpOp.readResponse true)
          let st4 : PSt := { st3 with client := relay st3.client pieces }
          st4.call UpOp.close

/-- The function `handleClientRequest` of the proxy, given what `http.ReadRequest` returned.
The deferred `clientConn.Close()` runs when the function returns. -/
def handleClientRequest (st : PSt) (serverURL : GoString) (env : Upstream) (r : ReadResult) : PSt :=
  let res : PSt :=
    match r with
    | Except.error e =>
        let st1 := if e ≠ ReadErr.EOF then st.print LogMsg.errorReadingRequestFromClient else st
        sendErrorResponse st1 StatusBadRequest (str "Bad Request")
    | Except.ok req =>
        if req.Method ≠ MethodGet then
          sendErrorResponse st StatusNotImplemented (str "Not Implemented")
        else handleGetRequest st req serverURL env
  { res with client := res.client.Close }

/-- A proxy handler state at the start of an exchange: a fresh client connection whose peer
accepts five writes, no upstream call made and nothing printed. -/
def idlePSt : PSt := { client := Conn.fresh 5, up := [], log := [] }

/-- An upstream that refuses the connection. -/
def deadUpstream : Upstream := { dialOk := false, writeOk := false, response := none }

/-- An upstream that answers with a status line, one header line, the empty line and a body
of five bytes. -/
def liveUpstream : Upstream :=
  { dialOk := true, writeOk := true,
    response := some [str "HTTP/1.1 200 OK\r\n", str "Content-Length: 5\r\n", str "\r\n",
      str "hello"] }

/-- A proxy handler state whose client accepts the status line in full and then breaks,
having taken the first four bytes of the header line. -/
def breakingPSt : PSt :=
  { client := { out := [], closed := false, budget := 1, slack := 4 }, up := [], log := [] }

/-- A GET of "/a.txt", as the proxy receives it. -/
def proxyGet : Request :=
  { Method := str "GET", Path := str "/a.txt", Body := { data := [], err := false } }

/-! ### The listener loop of the proxy -/

/-- Where the loop of `main` stands: before `listener.Accept()` or before the `go`
statement. -/
inductive Pc
  | accept
  | spawn
  deriving DecidableEq

/-- The state of the listener loop and of the goroutines it started. -/
structure Listener where
  pc : Pc
  /-- The goroutines that are inside `handleClientRequest`. -/
  handling : Nat
  deriving DecidableEq

/-- The steps of the loop and of the goroutines. -/
inductive Event
  /-- `listener.Accept()` returns a connection. -/
  | acceptOk
  /-- `listener.Accept()` returns an error; the loop continues. -/
  | acceptErr
  /-- The `go` statement starts `handleClientRequest` in a new goroutine. -/
  | spawn
  /-- `handleClientRequest` returns in one goroutine. -/
  | handlerReturns
  deriving DecidableEq

/-- One step; `none` when the event is not enabled in the state. -/
def step (s : Listener) : Event → Option Listener
  | Event.acceptOk => if s.pc = Pc.accept then some { s with pc := Pc.spawn } else none
  | Event.acceptErr => if s.pc = Pc.accept then some s else none
  | Event.spawn =>
      if s.pc = Pc.spawn then some { pc := Pc.accept, handling := s.handling + 1 } else none
  | Event.handlerReturns =>
      if 0 < s.handling then some { s with handling := s.handling - 1 } else none

/-- The state in which the loop starts: no goroutine. -/
def init : Listener := { pc := Pc.accept, handling := 0 }

/-- Running a sequence of events; `none` when one of them is not enabled. -/
def run : Listener → List Event → Option Listener
  | s, [] => some s
  | s, e :: es => (step s e).bind (fun s1 => run s1 es)

/-- The events of accepting `n` connections in a row and starting a handler for each. -/
def acceptMany : Nat → List Event
  | 0 => []
  | n + 1 => Event.acceptOk :: Event.spawn :: acceptMany n

end Proxy

/-! # Theorems -/

/-! ## Strings: what the library functions compute -/

theorem strings.startsWith_iff (s p : GoString) :
    strings.startsWith s p = true ↔ ∃ t, s = p ++ t := by
  induction p generalizing s with
  | nil => simp [strings.startsWith]
  | cons d p ih =>
    cases s with
    | nil => simp [strings.startsWith]
    | cons c s =>
      simp only [strings.startsWith, Bool.and_eq_true, beq_iff_eq, ih, List.cons_append,
        List.cons.injEq]
      constructor
      · rintro ⟨rfl, t, rfl⟩
        exact ⟨t, rfl, rfl⟩
      · rintro ⟨t, rfl, rfl⟩
        exact ⟨rfl, t, rfl⟩

theorem strings.Contains_iff (s sub : GoString) :
    strings.Contains s sub = true ↔ ∃ a b, s = a ++ sub ++ b := by
  induction s with
  | nil =>
    simp only [strings.Contains, strings.startsWith_iff]
    constructor
    · rintro ⟨t, h⟩
      exact ⟨[], t, by simpa using h⟩
    · rintro ⟨a, b, h⟩
      have h1 : a ++ sub ++ b = [] := h.symm
      simp only [List.append_eq_nil] at h1
      exact ⟨[], by simp [h1.1.2]⟩
  | cons c s ih =>
    simp only [strings.Contains, Bool.or_eq_true, strings.startsWith_iff, ih]
    constructor
    · rintro (⟨t, h⟩ | ⟨a, b, h⟩)
      · exact ⟨[], t, by simpa using h⟩
      · exact ⟨c :: a, b, by simp [h]⟩
    · rintro ⟨a, b, h⟩
      cases a with
      | nil => exact Or.inl ⟨b, by simpa using h⟩
      | cons x a =>
        simp only [List.cons_append, List.cons.injEq] at h
        exact Or.inr ⟨a, b, h.2⟩

theorem strings.Contains_cons (c : Nat) (s sub : GoString)
    (h : strings.Contains s sub = true) : strings.Contains (c :: s) sub = true := by
  simp [strings.Contains, h]

theorem sliceFrom_one (s r : GoString) (h : sliceFrom s 1 = some r) :
    ∃ c, s = c :: r := by
  cases s with
  | nil => simp [sliceFrom] at h
  | cons c s =>
    simp [sliceFrom] at h
    exact ⟨c, by rw [h]⟩

/-! ## Connections -/

theorem Conn.Write_ok (c : Conn) (data : GoString) (hc : c.closed = false)
    (hb : 0 < c.budget) :
    c.Write data = ({ c with out := c.out ++ data, budget := c.budget - 1 }, true) := by
  simp [Conn.Write, hc, hb]

/-! ## The responses of the server -/

theorem Server.sendContentErrorResponse_fs (st : St) (code : Nat) (ct msg : GoString) :
    (Server.sendContentErrorResponse st code ct msg).fs = st.fs := by
  unfold Server.sendContentErrorResponse
  simp only [St.print]
  split <;> rfl

theorem Server.sendContentErrorResponse_ops (st : St) (code : Nat) (ct msg : GoString) :
    (Server.sendContentErrorResponse st code ct msg).ops = st.ops := by
  unfold Server.sendContentErrorResponse
  simp only [St.print]
  split <;> rfl

theorem Server.sendContentErrorResponse_out (st : St) (code : Nat) (ct msg : GoString)
    (hc : st.conn.closed = false) (hb : 0 < st.conn.budget) :
    (Server.sendContentErrorResponse st code ct msg).conn.out =
      st.conn.out ++ (str "HTTP/1.1 " ++ fmtInt code ++ str " " ++ msg
        ++ str "\r\n\r\nContent_Type: " ++ ct ++ str "\r\n\r\n" ++ msg) := by
  unfold Server.sendContentErrorResponse
  simp [Conn.Write_ok _ _ hc hb]

theorem statusCodeOf_400 (rest : GoString) :
    statusCodeOf (str "HTTP/1.1 " ++ fmtInt StatusBadRequest ++ str " " ++ rest) = some 400 := by
  have h1 : str "HTTP/1.1 " = [72, 84, 84, 80, 47, 49, 46, 49, 32] := by decide
  have h2 : fmtInt StatusBadRequest = [52, 48, 48] := by decide
  have h3 : str " " = [32] := by decide
  rw [h1, h2, h3]
  simp [statusCodeOf, List.dropWhile]

/-! ## The path guard -/

theorem filepath.Ext_bin (stem : GoString) :
    filepath.Ext (stem ++ str ".bin") = str ".bin" := by
  have h : str ".bin" = [46, 98, 105, 110] := by decide
  rw [h]
  simp [filepath.Ext, filepath.extScan]

theorem Server.getContentType_bin (stem : GoString) :
    Server.getContentType (stem ++ str ".bin") = str "application/octet-stream" := by
  unfold Server.getContentType
  rw [filepath.Ext_bin]
  decide

theorem Server.handleGetRequest_guard (st : St) (req : Request) (resourcePath : GoString)
    (hp : sliceFrom req.Path 1 = some resourcePath)
    (hbad : strings.Contains resourcePath (str "..") = true ∨
      Server.getContentType resourcePath = str "application/octet-stream") :
    Server.handleGetRequest st req = some (Server.sendContentErrorResponse st StatusBadRequest
      (Server.getContentType resourcePath) (str "Bad Request")) := by
  unfold Server.handleGetRequest
  rw [hp]
  by_cases h1 : strings.Contains resourcePath (str "..") = true
  · simp [h1]
  · rcases hbad with h | h
    · exact absurd h h1
    · simp [h]

theorem Server.handlePostRequest_guard (st : St) (req : Request) (resourcePath : GoString)
    (hp : sliceFrom req.Path 1 = some resourcePath)
    (hbad : strings.Contains resourcePath (str "..") = true ∨
      Server.getContentType resourcePath = str "application/octet-stream") :
    Server.handlePostRequest st req = some (Server.sendContentErrorResponse st StatusBadRequest
      (Server.getContentType resourcePath) (str "Bad Request")) := by
  obtain ⟨c, hc⟩ := sliceFrom_one _ _ hp
  unfold Server.handlePostRequest
  rw [hp]
  by_cases h1 : strings.Contains req.Path (str "..") = true
  · simp [h1]
  · rcases hbad with h | h
    · exact absurd (hc ▸ strings.Contains_cons c _ _ h) h1
    · simp [h]

/-- C1. Path guard of the file server: when the resource path (the URL path without its
first byte) holds the substring ".." at any place, or resolves to the content type
"application/octet-stream", or in particular ends in ".bin", both handleGetRequest and
handlePostRequest return having made no filesystem call (no os.Open, no os.Create) and with
the filesystem unchanged, and on a connection that takes the write they deliver exactly one
response, whose status code is 400. -/
theorem path_guard_rejects_without_filesystem_access (st : St) (req : Request)
    (resourcePath : GoString)
    (hp : sliceFrom req.Path 1 = some resourcePath)
    (hbad : (∃ a b, resourcePath = a ++ str ".." ++ b) ∨
      Server.getContentType resourcePath = str "application/octet-stream" ∨
      (∃ stem, resourcePath = stem ++ str ".bin")) :
    (∃ st1 resp, Server.handleGetRequest st req = some st1 ∧ st1.fs = st.fs ∧
      st1.ops = st.ops ∧ statusCodeOf resp = some 400 ∧
      (st.conn.closed = false → 0 < st.conn.budget → st1.conn.out = st.conn.out ++ resp)) ∧
    (∃ st1 resp, Server.handlePostRequest st req = some st1 ∧ st1.fs = st.fs ∧
      st1.ops = st.ops ∧ statusCodeOf resp = some 400 ∧
      (st.conn.closed = false → 0 < st.conn.budget → st1.conn.out = st.conn.out ++ resp)) := by
  have hbad2 : strings.Contains resourcePath (str "..") = true ∨
      Server.getContentType resourcePath = str "application/octet-stream" := by
    rcases hbad with h | h | ⟨stem, rfl⟩
    · exact Or.inl ((strings.Contains_iff _ _).2 h)
    · exact Or.inr h
    · exact Or.inr (Server.getContentType_bin stem)
  have hout : st.conn.closed = false → 0 < st.conn.budget →
      (Server.sendContentErrorResponse st StatusBadRequest (Server.getContentType resourcePath)
        (str "Bad Request")).conn.out = st.conn.out ++
        (str "HTTP/1.1 " ++ fmtInt StatusBadRequest ++ str " " ++ (str "Bad Request"
          ++ str "\r\n\r\nContent_Type: " ++ Server.getContentType resourcePath
          ++ str "\r\n\r\n" ++ str "Bad Request")) := by
    intro hc hb
    rw [Server.sendContentErrorResponse_out _ _ _ _ hc hb]
    simp [List.append_assoc]
  exact ⟨⟨_, _, Server.handleGetRequest_guard st req resourcePath hp hbad2,
      Server.sendContentErrorResponse_fs _ _ _ _, Server.sendContentErrorResponse_ops _ _ _ _,
      statusCodeOf_400 _, hout⟩,
    ⟨_, _, Server.handlePostRequest_guard st req resourcePath hp hbad2,
      Server.sendContentErrorResponse_fs _ _ _ _, Server.sendContentErrorResponse_ops _ _ _ _,
      statusCodeOf_400 _, hout⟩⟩

/-- Witness of C1: a request for "/x.bin" on the filesystem that holds "a.txt". -/
theorem path_guard_rejects_without_filesystem_access_witness :
    sliceFrom postBin.Path 1 = some (str "x.bin") ∧
    (∃ stem, str "x.bin" = stem ++ str ".bin") ∧
    (∃ st1 resp, Server.handlePostRequest oldSt postBin = some st1 ∧ st1.fs = oldSt.fs ∧
      st1.ops = oldSt.ops ∧ statusCodeOf resp = some 400 ∧
      (oldSt.conn.closed = false → 0 < oldSt.conn.budget →
        st1.conn.out = oldSt.conn.out ++ resp)) :=
  ⟨by decide, ⟨str "x", by decide⟩,
    (path_guard_rejects_without_filesystem_access oldSt postBin (str "x.bin") (by decide)
      (Or.inr (Or.inr ⟨str "x", by decide⟩))).2⟩

/-! ## Case of letters -/

theorem CaseRel.eq_iff_of_not_letter {a b : Nat} (h : CaseRel a b) (k : Nat)
    (hk : k < 65 ∨ 122 < k) : a = k ↔ b = k := by
  unfold CaseRel swapCase at h
  split_ifs at h <;> omega

theorem CaseRel.lowerByte_eq {a b : Nat} (h : CaseRel a b) :
    strings.lowerByte a = strings.lowerByte b := by
  unfold CaseRel swapCase at h
  unfold strings.lowerByte
  split_ifs at h ⊢ <;> omega

theorem CaseVariant.forall₂ {p q : GoString} (h : CaseVariant p q) :
    List.Forall₂ CaseRel p q := by
  induction h with
  | nil => exact List.Forall₂.nil
  | keep b _ ih => exact List.Forall₂.cons (Or.inl rfl) ih
  | flip b _ ih => exact List.Forall₂.cons (Or.inr rfl) ih

theorem strings.ToLower_caseRel (p : GoString) :
    ∀ q, List.Forall₂ CaseRel p q → strings.ToLower p = strings.ToLower q := by
  induction p using strings.ToLower.induct with
  | case1 b0 b1 b2 s hc ih =>
    intro q hq
    obtain ⟨c0, q1, r0, hq1, rfl⟩ := List.forall₂_cons_left_iff.1 hq
    obtain ⟨c1, q2, r1, hq2, rfl⟩ := List.forall₂_cons_left_iff.1 hq1
    obtain ⟨c2, t, r2, ht, rfl⟩ := List.forall₂_cons_left_iff.1 hq2
    have e0 := r0.eq_iff_of_not_letter 226 (by omega)
    have e1 := r1.eq_iff_of_not_letter 132 (by omega)
    have e2 := r2.eq_iff_of_not_letter 170 (by omega)
    have hc2 : c0 = 226 ∧ c1 = 132 ∧ c2 = 170 := ⟨e0.1 hc.1, e1.1 hc.2.1, e2.1 hc.2.2⟩
    simp only [strings.ToLower, hc, hc2, and_self, if_true, ih t ht]
  | case2 b0 b1 b2 s hn hc ih =>
    intro q hq
    obtain ⟨c0, q1, r0, hq1, rfl⟩ := List.forall₂_cons_left_iff.1 hq
    obtain ⟨c1, q2, r1, hq2, rfl⟩ := List.forall₂_cons_left_iff.1 hq1
    obtain ⟨c2, t, r2, ht, rfl⟩ := List.forall₂_cons_left_iff.1 hq2
    have e0 := r0.eq_iff_of_not_letter 226 (by omega)
    have e1 := r1.eq_iff_of_not_letter 132 (by omega)
    have e2 := r2.eq_iff_of_not_letter 170 (by omega)
    have f0 := r0.eq_iff_of_not_letter 196 (by omega)
    have f1 := r1.eq_iff_of_not_letter 176 (by omega)
    have hn2 : ¬(c0 = 226 ∧ c1 = 132 ∧ c2 = 170) := fun h => hn ⟨e0.2 h.1, e1.2 h.2.1, e2.2 h.2.2⟩
    have hc2 : c0 = 196 ∧ c1 = 176 := ⟨f0.1 hc.1, f1.1 hc.2⟩
    have key := ih (c2 :: t) (List.Forall₂.cons r2 ht)
    rw [strings.ToLower, strings.ToLower, if_neg hn, if_neg hn2, if_pos hc, if_pos hc2, key]
  | case3 b0 b1 b2 s hn hn' ih =>
    intro q hq
    obtain ⟨c0, q1, r0, hq1, rfl⟩ := List.forall₂_cons_left_iff.1 hq
    obtain ⟨c1, q2, r1, hq2, rfl⟩ := List.forall₂_cons_left_iff.1 hq1
    obtain ⟨c2, t, r2, ht, rfl⟩ := List.forall₂_cons_left_iff.1 hq2
    have e0 := r0.eq_iff_of_not_letter 226 (by omega)
    have e1 := r1.eq_iff_of_not_letter 132 (by omega)
    have e2 := r2.eq_iff_of_not_letter 170 (by omega)
    have f0 := r0.eq_iff_of_not_letter 196 (by omega)
    have f1 := r1.eq_iff_of_not_letter 176 (by omega)
    have hn2 : ¬(c0 = 226 ∧ c1 = 132 ∧ c2 = 170) := fun h => hn ⟨e0.2 h.1, e1.2 h.2.1, e2.2 h.2.2⟩
    have hn2' : ¬(c0 = 196 ∧ c1 = 176) := fun h => hn' ⟨f0.2 h.1, f1.2 h.2⟩
    have key := ih (c1 :: c2 :: t) (List.Forall₂.cons r1 (List.Forall₂.cons r2 ht))
    rw [strings.ToLower, strings.ToLower, if_neg hn, if_neg hn2, if_neg hn', if_neg hn2', key,
      r0.lowerByte_eq]
  | case4 b0 b1 hc =>
    intro q hq
    obtain ⟨c0, q1, r0, hq1, rfl⟩ := List.forall₂_cons_left_iff.1 hq
    obtain ⟨c1, q2, r1, hq2, rfl⟩ := List.forall₂_cons_left_iff.1 hq1
    cases hq2
    have f0 := r0.eq_iff_of_not_letter 196 (by omega)
    have f1 := r1.eq_iff_of_not_letter 176 (by omega)
    have hc2 : c0 = 196 ∧ c1 = 176 := ⟨f0.1 hc.1, f1.1 hc.2⟩
    rw [strings.ToLower, strings.ToLower, if_pos hc, if_pos hc2]
  | case5 b0 b1 hn ih =>
    intro q hq
    obtain ⟨c0, q1, r0, hq1, rfl⟩ := List.forall₂_cons_left_iff.1 hq
    obtain ⟨c1, q2, r1, hq2, rfl⟩ := List.forall₂_cons_left_iff.1 hq1
    cases hq2
    have f0 := r0.eq_iff_of_not_letter 196 (by omega)
    have f1 := r1.eq_iff_of_not_letter 176 (by omega)
    have hn2 : ¬(c0 = 196 ∧ c1 = 176) := fun h => hn ⟨f0.2 h.1, f1.2 h.2⟩
    have key := ih [c1] (List.Forall₂.cons r1 List.Forall₂.nil)
    rw [strings.ToLower, strings.ToLower, if_neg hn, if_neg hn2, key, r0.lowerByte_eq]
  | case6 b0 =>
    intro q hq
    obtain ⟨c0, q1, r0, hq1, rfl⟩ := List.forall₂_cons_left_iff.1 hq
    cases hq1
    rw [strings.ToLower, strings.ToLower, r0.lowerByte_eq]
  | case7 =>
    intro q hq
    cases hq
    rfl

theorem filepath.extScan_caseRel (rev : GoString) :
    ∀ rev2 acc acc2, List.Forall₂ CaseRel rev rev2 → List.Forall₂ CaseRel acc acc2 →
      List.Forall₂ CaseRel (filepath.extScan rev acc) (filepath.extScan rev2 acc2) := by
  induction rev with
  | nil =>
    intro rev2 acc acc2 h _
    cases h
    exact List.Forall₂.nil
  | cons c r ih =>
    intro rev2 acc acc2 h hacc
    obtain ⟨d, r2, hr, hrest, rfl⟩ := List.forall₂_cons_left_iff.1 h
    have e47 := hr.eq_iff_of_not_letter 47 (by omega)
    have e46 := hr.eq_iff_of_not_letter 46 (by omega)
    simp only [filepath.extScan]
    by_cases h47 : c = 47
    · rw [if_pos h47, if_pos (e47.1 h47)]
      exact List.Forall₂.nil
    · rw [if_neg h47, if_neg (fun h => h47 (e47.2 h))]
      by_cases h46 : c = 46
      · rw [if_pos h46, if_pos (e46.1 h46)]
        exact List.Forall₂.cons hr hacc
      · rw [if_neg h46, if_neg (fun h => h46 (e46.2 h))]
        exact ih r2 (c :: acc) (d :: acc2) hrest (List.Forall₂.cons hr hacc)

theorem Server.getContentType_caseVariant (p q : GoString) (h : CaseVariant p q) :
    Server.getContentType p = Server.getContentType q := by
  have h1 : List.Forall₂ CaseRel (filepath.Ext p) (filepath.Ext q) :=
    filepath.extScan_caseRel _ _ _ _ (List.forall₂_reverse_iff.2 h.forall₂) List.Forall₂.nil
  unfold Server.getContentType
  rw [strings.ToLower_caseRel _ _ h1]

/-! ## The extension of a path -/

theorem filepath.extScan_spec (rev : GoString) :
    ∀ acc : GoString, 46 ∉ acc → 47 ∉ acc →
      (∃ a t, rev.reverse ++ acc = a ++ 46 :: t ∧ 46 ∉ t ∧ 47 ∉ t ∧
          filepath.extScan rev acc = 46 :: t) ∨
        ((∀ a t, rev.reverse ++ acc = a ++ 46 :: t → 47 ∈ t) ∧ filepath.extScan rev acc = []) := by
  induction rev with
  | nil =>
    intro acc h46 _
    refine Or.inr ⟨?_, rfl⟩
    intro a t h
    exfalso
    apply h46
    have : (46 : Nat) ∈ a ++ 46 :: t := by simp
    simpa [← h] using this
  | cons c r ih =>
    intro acc h46 h47
    simp only [filepath.extScan]
    by_cases hc47 : c = 47
    · subst hc47
      rw [if_pos rfl]
      refine Or.inr ⟨?_, rfl⟩
      intro a t h
      simp only [List.reverse_cons, List.append_assoc, List.singleton_append] at h
      rcases List.append_eq_append_iff.1 h with ⟨a2, _, h2⟩ | ⟨c2, _, h2⟩
      · exfalso
        have : (46 : Nat) ∈ a2 ++ 46 :: t := by simp
        rw [← h2] at this
        simp only [List.mem_cons] at this
        rcases this with h3 | h3
        · omega
        · exact h46 h3
      · have : (47 : Nat) ∈ c2 ++ 47 :: acc := by simp
        rw [← h2] at this
        simp only [List.mem_cons] at this
        rcases this with h3 | h3
        · omega
        · exact h3
    · rw [if_neg hc47]
      by_cases hc46 : c = 46
      · subst hc46
        rw [if_pos rfl]
        exact Or.inl ⟨r.reverse, acc, by simp, h46, h47, rfl⟩
      · rw [if_neg hc46]
        have h46n : (46 : Nat) ∉ c :: acc := by
          simp only [List.mem_cons, not_or]
          exact ⟨fun h => hc46 h.symm, h46⟩
        have h47n : (47 : Nat) ∉ c :: acc := by
          simp only [List.mem_cons, not_or]
          exact ⟨fun h => hc47 h.symm, h47⟩
        have := ih (c :: acc) h46n h47n
        simpa only [List.reverse_cons, List.append_assoc, List.singleton_append] using this

theorem filepath.Ext_spec (path : GoString) :
    (∃ a t, path = a ++ 46 :: t ∧ 46 ∉ t ∧ 47 ∉ t ∧ filepath.Ext path = 46 :: t) ∨
      ((∀ a t, path = a ++ 46 :: t → 47 ∈ t) ∧ filepath.Ext path = []) := by
  have := filepath.extScan_spec path.reverse [] (by simp) (by simp)
  simpa only [List.reverse_reverse, List.append_nil] using this

/-- C10. Content-type resolution is total, closed and case-insensitive. getContentType
returns, for every path, one of six values, each of which some path yields; the value is
other than "application/octet-stream" exactly when the lower-cased extension is one of
".html", ".txt", ".gif", ".jpeg", ".jpg", ".css"; the extension is the suffix that starts at
the last dot of the last slash-separated element, and is empty when that element has no
dot; and changing the case of ASCII letters of the path never changes the result, so that
"a.HTML", "a.Html" and "a.html" all give "text/html". -/
theorem getContentType_total_closed_case_insensitive :
    (∀ p : GoString, Server.getContentType p ∈
      [str "text/html", str "text/plain", str "image/gif", str "image/jpeg", str "text/css",
        str "application/octet-stream"]) ∧
    (∀ v ∈ [str "text/html", str "text/plain", str "image/gif", str "image/jpeg",
        str "text/css", str "application/octet-stream"], ∃ p, Server.getContentType p = v) ∧
    (∀ p : GoString, Server.getContentType p ≠ str "application/octet-stream" ↔
      strings.ToLower (filepath.Ext p) ∈
        [str ".html", str ".txt", str ".gif", str ".jpeg", str ".jpg", str ".css"]) ∧
    (∀ p : GoString,
      (∃ a t, p = a ++ 46 :: t ∧ 46 ∉ t ∧ 47 ∉ t ∧ filepath.Ext p = 46 :: t) ∨
        ((∀ a t, p = a ++ 46 :: t → 47 ∈ t) ∧ filepath.Ext p = [])) ∧
    (∀ p q : GoString, CaseVariant p q → Server.getContentType p = Server.getContentType q) ∧
    (Server.getContentType (str "a.HTML") = str "text/html" ∧
      Server.getContentType (str "a.Html") = str "text/html" ∧
      Server.getContentType (str "a.html") = str "text/html") := by
  refine ⟨?_, ?_, ?_, filepath.Ext_spec, Server.getContentType_caseVariant, by decide⟩
  · intro p
    unfold Server.getContentType
    simp only []
    split_ifs <;> simp
  · intro v hv
    simp only [List.mem_cons, List.mem_singleton, List.not_mem_nil, or_false] at hv
    rcases hv with rfl | rfl | rfl | rfl | rfl | rfl
    · exact ⟨str "a.html", by decide⟩
    · exact ⟨str "a.txt", by decide⟩
    · exact ⟨str "a.gif", by decide⟩
    · exact ⟨str "a.jpg", by decide⟩
    · exact ⟨str "a.css", by decide⟩
    · exact ⟨str "a.bin", by decide⟩
  · intro p
    have d1 : str "text/html" ≠ str "application/octet-stream" := by decide
    have d2 : str "text/plain" ≠ str "application/octet-stream" := by decide
    have d3 : str "image/gif" ≠ str "application/octet-stream" := by decide
    have d4 : str "image/jpeg" ≠ str "application/octet-stream" := by decide
    have d5 : str "text/css" ≠ str "application/octet-stream" := by decide
    unfold Server.getContentType
    simp only [List.mem_cons, List.mem_singleton, List.not_mem_nil, or_false]
    split_ifs with h1 h2 h3 h4 h5
    · exact ⟨fun _ => Or.inl h1, fun _ => d1⟩
    · exact ⟨fun _ => Or.inr (Or.inl h2), fun _ => d2⟩
    · exact ⟨fun _ => Or.inr (Or.inr (Or.inl h3)), fun _ => d3⟩
    · refine ⟨fun _ => ?_, fun _ => d4⟩
      rcases h4 with h | h
      · exact Or.inr (Or.inr (Or.inr (Or.inl h)))
      · exact Or.inr (Or.inr (Or.inr (Or.inr (Or.inl h))))
    · exact ⟨fun _ => Or.inr (Or.inr (Or.inr (Or.inr (Or.inr h5)))), fun _ => d5⟩
    · refine ⟨fun h => absurd rfl h, fun h => ?_⟩
      rcases h with h | h | h | h | h | h
      · exact absurd h h1
      · exact absurd h h2
      · exact absurd h h3
      · exact absurd (Or.inl h) h4
      · exact absurd (Or.inr h) h4
      · exact absurd h h5

/-- Witness of C10: the path "a.HTML" and its case variant "a.html". -/
theorem getContentType_total_closed_case_insensitive_witness :
    CaseVariant (str "a.HTML") (str "a.html") ∧
      Server.getContentType (str "a.HTML") = Server.getContentType (str "a.html") :=
  ⟨CaseVariant.keep 97 (CaseVariant.keep 46 (CaseVariant.flip 72 (CaseVariant.flip 84
      (CaseVariant.flip 77 (CaseVariant.flip 76 CaseVariant.nil))))),
    getContentType_total_closed_case_insensitive.2.2.2.2.1 _ _
      (CaseVariant.keep 97 (CaseVariant.keep 46 (CaseVariant.flip 72 (CaseVariant.flip 84
        (CaseVariant.flip 77 (CaseVariant.flip 76 CaseVariant.nil))))))⟩

/-! ## Serving and storing files -/

theorem Server.sendErrorResponse_fs (st : St) (code : Nat) (msg : GoString) :
    (Server.sendErrorResponse st code msg).fs = st.fs := by
  unfold Server.sendErrorResponse
  simp only [St.print]
  split <;> rfl

theorem Server.sendErrorResponse_ops (st : St) (code : Nat) (msg : GoString) :
    (Server.sendErrorResponse st code msg).ops = st.ops := by
  unfold Server.sendErrorResponse
  simp only [St.print]
  split <;> rfl

theorem Server.sendErrorResponse_out (st : St) (code : Nat) (msg : GoString)
    (hc : st.conn.closed = false) (hb : 0 < st.conn.budget) :
    (Server.sendErrorResponse st code msg).conn.out =
      st.conn.out ++ (str "HTTP/1.1 " ++ fmtInt code ++ str " " ++ msg ++ str "\r\n\r\n" ++ msg) ∧
    (Server.sendErrorResponse st code msg).conn.closed = false ∧
    (Server.sendErrorResponse st code msg).log = st.log := by
  unfold Server.sendErrorResponse
  simp [Conn.Write_ok _ _ hc hb, hc]

theorem Server.sendPostResponse_fs (st : St) (code : Nat) (ct msg : GoString) :
    (Server.sendPostResponse st code ct msg).fs = st.fs := by
  unfold Server.sendPostResponse
  simp only [St.print]
  split <;> split <;> rfl

theorem Server.sendPostResponse_ops (st : St) (code : Nat) (ct msg : GoString) :
    (Server.sendPostResponse st code ct msg).ops = st.ops := by
  unfold Server.sendPostResponse
  simp only [St.print]
  split <;> split <;> rfl

theorem Server.okHeader_200 (t : GoString) (n : Nat) :
    Server.okHeader StatusOK t n =
      str "HTTP/1.1 200 OK\r\nContent-Type: " ++ t ++ str "\r\nContent-Length: " ++ fmtInt n
        ++ str "\r\nServer: Go\r\nConnection: close\r\n\r\n" := by
  have h1 : str "HTTP/1.1 200 OK\r\nContent-Type: " =
      str "HTTP/1.1 " ++ fmtInt StatusOK ++ str " OK\r\n" ++ str "Content-Type: " := by decide
  have h2 : str "\r\nContent-Length: " = str "\r\n" ++ str "Content-Length: " := by decide
  have h3 : str "\r\nServer: Go\r\nConnection: close\r\n\r\n" =
      str "\r\n" ++ str "Server: Go\r\n" ++ str "Connection: close\r\n" ++ str "\r\n" := by
    decide
  rw [h1, h2, h3]
  simp only [Server.okHeader, List.append_assoc]

theorem Server.sendGETResponse_out (st : St) (code : Nat) (t : GoString) (f : File)
    (hstat : f.statOk = true) (hc : st.conn.closed = false) (hb : 2 ≤ st.conn.budget) :
    (Server.sendGETResponse st code t f).conn.out =
      st.conn.out ++ Server.okHeader code t f.size ++ f.content := by
  unfold Server.sendGETResponse
  have hb1 : 0 < st.conn.budget := by omega
  simp only [hstat, Bool.true_eq_false, if_false, Conn.Write_ok _ _ hc hb1, if_true]
  unfold copyFileToConn
  by_cases hf : f.content = []
  · simp [hf]
  · have hb2 : 0 < st.conn.budget - 1 := by omega
    simp [hf, Conn.Write, hc, hb2]

/-- C8, refuted at a concrete input: for the open handle of a directory, whose metadata
report 4096 bytes and which yields no byte, sendGETResponse on a fresh connection, with no
write failing and nothing printed, delivers the header block with Content-Length: 4096 and
an empty body, so the Content-Length value is not the number of body bytes sent; the same
bytes answer a GET of "/d.txt" when "d.txt" is a directory. -/
theorem directory_handle_content_length_differs_from_body :
    (Server.sendGETResponse idleSt StatusOK (str "text/plain") dirHandle).conn.out =
      str "HTTP/1.1 200 OK\r\nContent-Type: text/plain\r\nContent-Length: 4096\r\nServer: Go\r\nConnection: close\r\n\r\n" ∧
    (Server.sendGETResponse idleSt StatusOK (str "text/plain") dirHandle).conn.closed = false ∧
    (Server.sendGETResponse idleSt StatusOK (str "text/plain") dirHandle).log = [] ∧
    bodyOf (Server.sendGETResponse idleSt StatusOK (str "text/plain") dirHandle).conn.out =
      some [] ∧
    dirHandle.size = 4096 ∧ dirHandle.size ≠ ([] : GoString).length ∧
    (Server.handleGetRequest dirSt getDir).map (fun s => s.conn.out) =
      some (Server.sendGETResponse idleSt StatusOK (str "text/plain") dirHandle).conn.out := by
  decide

/-- C8, amended. Framing of a successful GET: for every open handle whose Stat succeeds
and reports the size n, whose reading yields the bytes c, and every content type t, when no
write fails sendGETResponse (called with status 200, as handleGetRequest does) delivers
exactly the status line "HTTP/1.1 200 OK", the headers Content-Type: t, Content-Length: n,
Server: Go and Connection: close, an empty line, and then c. So the four headers are all
present, the Content-Length value is the decimal size that the metadata report, and the
header block comes wholly before the body; the Content-Length value is the number of body
bytes sent whenever n is the length of c, as on a regular file that nobody writes between
Stat and the copy. -/
theorem sendGETResponse_framing_by_stat_size (st : St) (t : GoString) (f : File)
    (hstat : f.statOk = true) (hc : st.conn.closed = false) (hb : 2 ≤ st.conn.budget) :
    (Server.sendGETResponse st StatusOK t f).conn.out =
      st.conn.out ++ (str "HTTP/1.1 200 OK\r\nContent-Type: " ++ t ++ str "\r\nContent-Length: "
        ++ fmtInt f.size ++ str "\r\nServer: Go\r\nConnection: close\r\n\r\n")
        ++ f.content ∧
    (f.size = f.content.length →
      (Server.sendGETResponse st StatusOK t f).conn.out =
        st.conn.out ++ (str "HTTP/1.1 200 OK\r\nContent-Type: " ++ t
          ++ str "\r\nContent-Length: " ++ fmtInt f.content.length
          ++ str "\r\nServer: Go\r\nConnection: close\r\n\r\n")
          ++ f.content) := by
  have h : (Server.sendGETResponse st StatusOK t f).conn.out =
      st.conn.out ++ (str "HTTP/1.1 200 OK\r\nContent-Type: " ++ t ++ str "\r\nContent-Length: "
        ++ fmtInt f.size ++ str "\r\nServer: Go\r\nConnection: close\r\n\r\n")
        ++ f.content := by
    rw [Server.sendGETResponse_out st StatusOK t f hstat hc hb, Server.okHeader_200]
  refine ⟨h, fun hsize => ?_⟩
  rw [h, hsize]

/-- Witness of C8 as amended: a regular file of five bytes sent as text/plain on a fresh
connection. -/
theorem sendGETResponse_framing_by_stat_size_witness :
    helloFile.statOk = true ∧ idleSt.conn.closed = false ∧ 2 ≤ idleSt.conn.budget ∧
    helloFile.size = helloFile.content.length ∧
    (Server.sendGETResponse idleSt StatusOK (str "text/plain") helloFile).conn.out =
      idleSt.conn.out ++ (str "HTTP/1.1 200 OK\r\nContent-Type: " ++ str "text/plain"
        ++ str "\r\nContent-Length: " ++ fmtInt helloFile.content.length
        ++ str "\r\nServer: Go\r\nConnection: close\r\n\r\n") ++ helloFile.content :=
  ⟨rfl, rfl, by decide, by decide,
    (sendGETResponse_framing_by_stat_size idleSt (str "text/plain") helloFile rfl rfl
      (by decide)).2 (by decide)⟩

theorem osCreate_cases (st : St) (p : GoString) :
    (osCreate st p = ({ st with ops := st.ops ++ [FsOp.osCreate p false] }, false)) ∨
    (osCreate st p = ({ st with
        fs := { st.fs with node := Function.update st.fs.node p (some (Node.file [])) },
        ops := st.ops ++ [FsOp.osCreate p true] }, true)) := by
  unfold osCreate
  cases h : st.fs.node p with
  | none =>
    by_cases hc : st.fs.creatable p = true
    · simp [hc]
    · simp [hc]
  | some n =>
    cases n with
    | file c => simp
    | dir n => simp
    | denied => simp

theorem Server.handlePostRequest_stored (st st1 : St) (req : Request) (p : GoString)
    (hp : sliceFrom req.Path 1 = some p)
    (hpost : Server.handlePostRequest st req = some st1)
    (hok : st1.ops = st.ops ++ [FsOp.osCreate p true, FsOp.fileWrite p req.Body.data true,
      FsOp.fileClose p]) :
    st1.fs.node p = some (Node.file req.Body.data) := by
  unfold Server.handlePostRequest at hpost
  rw [hp] at hpost
  simp only [] at hpost
  split_ifs at hpost with h1 h2
  · cases hpost
    rw [Server.sendContentErrorResponse_ops] at hok
    simp at hok
  · cases hpost
    rw [Server.sendContentErrorResponse_ops] at hok
    simp at hok
  · rcases osCreate_cases st p with hcr | hcr
    · rw [hcr] at hpost
      cases hpost
      rw [Server.sendErrorResponse_ops] at hok
      simp at hok
    · rw [hcr] at hpost
      cases hb : req.Body.err with
      | true =>
        simp only [copyBodyToFile, hb, Bool.not_true] at hpost
        cases hpost
        simp [fileClose, Server.sendErrorResponse_ops] at hok
      | false =>
        simp only [copyBodyToFile, hb, Bool.not_false] at hpost
        cases hpost
        simp [fileClose, Server.sendPostResponse_fs]

theorem Server.handleGetRequest_serves (g : St) (req : Request) (p c : GoString)
    (hp : sliceFrom req.Path 1 = some p)
    (hdots : strings.Contains p (str "..") = false)
    (htype : Server.getContentType p ≠ str "application/octet-stream")
    (hnode : g.fs.node p = some (Node.file c))
    (hc : g.conn.closed = false) (hb : 2 ≤ g.conn.budget) :
    ∃ g1, Server.handleGetRequest g req = some g1 ∧
      g1.conn.out = g.conn.out ++ Server.okHeader StatusOK (Server.getContentType p) c.length
        ++ c := by
  unfold Server.handleGetRequest
  rw [hp]
  simp only [hdots, htype, Bool.false_eq_true, if_false, osOpen, hnode]
  refine ⟨_, rfl, ?_⟩
  simp only [fileClose]
  exact Server.sendGETResponse_out _ _ _ _ rfl hc hb

theorem statusCodeOf_200 (rest : GoString) :
    statusCodeOf (str "HTTP/1.1 200 OK\r\nContent-Type: " ++ rest) = some 200 := by
  have h1 : str "HTTP/1.1 200 OK\r\nContent-Type: " =
      [72, 84, 84, 80, 47, 49, 46, 49, 32, 50, 48, 48, 32] ++ str "OK\r\nContent-Type: " := by
    decide
  rw [h1]
  simp [statusCodeOf, List.dropWhile]

/-- C2. Round trip on an explicit filesystem state: let p be a resource path that passes the
path guard (no "..", a recognized extension) and let a POST to p with body b have created
and written the file (its filesystem calls are a successful os.Create, a successful copy of
b and the close). Then a GET of the same path on the resulting filesystem, on a connection
on which no write fails, delivers a response with status 200, Content-Length equal to the
byte length of b, and a body that is exactly b, whatever the file held before the POST. -/
theorem post_then_get_round_trip (st st1 g : St) (req get : Request) (p : GoString)
    (hp : sliceFrom req.Path 1 = some p)
    (hdots : ¬ ∃ a b, p = a ++ str ".." ++ b)
    (htype : Server.getContentType p ≠ str "application/octet-stream")
    (hpost : Server.handlePostRequest st req = some st1)
    (hok : st1.ops = st.ops ++ [FsOp.osCreate p true, FsOp.fileWrite p req.Body.data true,
      FsOp.fileClose p])
    (hget : get.Path = req.Path) (hfs : g.fs = st1.fs)
    (hc : g.conn.closed = false) (hb : 2 ≤ g.conn.budget) :
    ∃ g1, Server.handleGetRequest g get = some g1 ∧
      g1.conn.out = g.conn.out ++ (str "HTTP/1.1 200 OK\r\nContent-Type: "
        ++ Server.getContentType p ++ str "\r\nContent-Length: "
        ++ fmtInt req.Body.data.length ++ str "\r\nServer: Go\r\nConnection: close\r\n\r\n")
        ++ req.Body.data ∧
      statusCodeOf (str "HTTP/1.1 200 OK\r\nContent-Type: "
        ++ Server.getContentType p ++ str "\r\nContent-Length: "
        ++ fmtInt req.Body.data.length ++ str "\r\nServer: Go\r\nConnection: close\r\n\r\n"
        ++ req.Body.data) = some 200 := by
  have hnode : g.fs.node p = some (Node.file req.Body.data) := by
    rw [hfs]
    exact Server.handlePostRequest_stored st st1 req p hp hpost hok
  have hd : strings.Contains p (str "..") = false := by
    cases h : strings.Contains p (str "..") with
    | false => rfl
    | true => exact absurd ((strings.Contains_iff _ _).1 h) hdots
  obtain ⟨g1, h1, h2⟩ := Server.handleGetRequest_serves g get p req.Body.data
    (hget ▸ hp) hd htype hnode hc hb
  refine ⟨g1, h1, ?_, ?_⟩
  · rw [h2, Server.okHeader_200]
  · simp only [List.append_assoc]
    exact statusCodeOf_200 _

/-- Witness of C2: the file "a.txt" holds "old"; a POST of "hello" to "/a.txt" succeeds and
the GET that follows returns the five bytes of "hello". -/
theorem post_then_get_round_trip_witness :
    sliceFrom postHello.Path 1 = some (str "a.txt") ∧
    Server.handlePostRequest oldSt postHello = some Server.storedSt ∧
    Server.storedSt.ops = oldSt.ops ++ [FsOp.osCreate (str "a.txt") true,
      FsOp.fileWrite (str "a.txt") postHello.Body.data true, FsOp.fileClose (str "a.txt")] ∧
    ∃ g1, Server.handleGetRequest { Server.storedSt with conn := Conn.fresh 2 } getHello = some g1 ∧
      g1.conn.out = (Conn.fresh 2).out ++ (str "HTTP/1.1 200 OK\r\nContent-Type: "
        ++ Server.getContentType (str "a.txt") ++ str "\r\nContent-Length: "
        ++ fmtInt postHello.Body.data.length
        ++ str "\r\nServer: Go\r\nConnection: close\r\n\r\n")
        ++ postHello.Body.data ∧
      statusCodeOf (str "HTTP/1.1 200 OK\r\nContent-Type: "
        ++ Server.getContentType (str "a.txt") ++ str "\r\nContent-Length: "
        ++ fmtInt postHello.Body.data.length
        ++ str "\r\nServer: Go\r\nConnection: close\r\n\r\n"
        ++ postHello.Body.data) = some 200 :=
  ⟨by decide, rfl, by decide,
    post_then_get_round_trip oldSt Server.storedSt { Server.storedSt with conn := Conn.fresh 2 }
      postHello getHello (str "a.txt") (by decide)
      (fun h => absurd ((strings.Contains_iff _ _).2 h) (by decide)) (by decide) rfl
      (by decide) rfl rfl rfl (by decide)⟩

/-- C3, evaluated at a GET of "/a.txt" on the empty filesystem: the server writes a response
with status code 404 in which the text after the first empty line is
"Content_Type: text/plain", an empty line and "Not Found", which is not the reason phrase
alone. -/
theorem get_missing_file_body_has_content_type_line :
    (Server.handleGetRequest idleSt getHello).map (fun s => s.conn.out) =
      some (str "HTTP/1.1 404 Not Found\r\n\r\nContent_Type: text/plain\r\n\r\nNot Found") ∧
    statusCodeOf (str "HTTP/1.1 404 Not Found\r\n\r\nContent_Type: text/plain\r\n\r\nNot Found")
      = some 404 ∧
    bodyOf (str "HTTP/1.1 404 Not Found\r\n\r\nContent_Type: text/plain\r\n\r\nNot Found") =
      some (str "Content_Type: text/plain\r\n\r\nNot Found") ∧
    str "Content_Type: text/plain\r\n\r\nNot Found" ≠ str "Not Found" := by
  decide

/-- C9, evaluated at the empty URL path: both handlers, and handleRequest that calls them,
stop with the panic of the slice expression req.URL.Path[1:] and write no response,
whatever the state, the method dispatched and the body. -/
theorem empty_path_panics (st : St) (b : Body) :
    Server.handleGetRequest st { Method := str "GET", Path := [], Body := b } = none ∧
    Server.handlePostRequest st { Method := str "POST", Path := [], Body := b } = none ∧
    Server.handleRequest st (Except.ok { Method := str "GET", Path := [], Body := b }) = none ∧
    Server.handleRequest st (Except.ok { Method := str "POST", Path := [], Body := b }) = none := by
  refine ⟨rfl, rfl, ?_, ?_⟩
  · have h : Server.handleGetRequest st { Method := str "GET", Path := [], Body := b } = none :=
      rfl
    simp [Server.handleRequest, h]
  · have h : Server.handlePostRequest st { Method := str "POST", Path := [], Body := b } = none :=
      rfl
    have hne : str "POST" ≠ str "GET" := by decide
    simp [Server.handleRequest, h, hne]

/-! ## Failed reads of the request -/

theorem Proxy.sendErrorResponse_delivers (st : Proxy.PSt) (code : Nat) (msg : GoString)
    (hc : st.client.closed = false) (hb : 0 < st.client.budget) :
    (Proxy.sendErrorResponse st code msg).client.out =
      st.client.out ++ (str "HTTP/1.1 " ++ fmtInt code ++ str " " ++ msg ++ str "\r\n\r\n" ++ msg) ∧
    (Proxy.sendErrorResponse st code msg).log = st.log := by
  unfold Proxy.sendErrorResponse
  simp [Conn.Write_ok _ _ hc hb]

theorem Proxy.sendErrorResponse_up (st : Proxy.PSt) (code : Nat) (msg : GoString) :
    (Proxy.sendErrorResponse st code msg).up = st.up := by
  unfold Proxy.sendErrorResponse
  simp only [Proxy.PSt.print]
  split <;> rfl

theorem badRequest_bytes :
    str "HTTP/1.1 " ++ fmtInt StatusBadRequest ++ str " " ++ str "Bad Request" ++ str "\r\n\r\n"
      ++ str "Bad Request" = str "HTTP/1.1 400 Bad Request\r\n\r\nBad Request" := by
  decide

theorem notImplemented_bytes :
    str "HTTP/1.1 " ++ fmtInt StatusNotImplemented ++ str " " ++ str "Not Implemented"
      ++ str "\r\n\r\n" ++ str "Not Implemented" =
      str "HTTP/1.1 501 Not Implemented\r\n\r\nNot Implemented" := by
  decide

/-- C5, refuted at a concrete input: on a fresh connection whose request read fails with
io.EOF, the server and the proxy each deliver the 400 response, so something is written. -/
theorem eof_is_answered_with_400 :
    (Server.handleRequest idleSt (Except.error ReadErr.EOF)).map (fun s => s.conn.out) =
      some (str "HTTP/1.1 400 Bad Request\r\n\r\nBad Request") ∧
    (Proxy.handleClientRequest Proxy.idlePSt (str "localhost:8080") Proxy.deadUpstream
      (Except.error ReadErr.EOF)).client.out =
      str "HTTP/1.1 400 Bad Request\r\n\r\nBad Request" ∧
    str "HTTP/1.1 400 Bad Request\r\n\r\nBad Request" ≠ idleSt.conn.out ∧
    str "HTTP/1.1 400 Bad Request\r\n\r\nBad Request" ≠ Proxy.idlePSt.client.out := by
  decide

/-- C5, amended. When reading the request fails, with io.EOF or with any other error,
handleRequest in the server and handleClientRequest in the proxy each deliver, on a
connection that takes the write, exactly "HTTP/1.1 400 Bad Request", an empty line and
"Bad Request", make no filesystem or upstream call, and close the connection; io.EOF
differs from the other errors only in that no diagnostic is printed. -/
theorem read_failure_is_answered_with_400 (st : St) (pst : Proxy.PSt) (serverURL : GoString)
    (env : Proxy.Upstream) (e : ReadErr)
    (hc : st.conn.closed = false) (hb : 0 < st.conn.budget)
    (hpc : pst.client.closed = false) (hpb : 0 < pst.client.budget) :
    (∃ st1, Server.handleRequest st (Except.error e) = some st1 ∧
      st1.conn.out = st.conn.out ++ str "HTTP/1.1 400 Bad Request\r\n\r\nBad Request" ∧
      st1.conn.closed = true ∧ st1.ops = st.ops ∧ st1.fs = st.fs ∧
      (st1.log = st.log ↔ e = ReadErr.EOF)) ∧
    ((Proxy.handleClientRequest pst serverURL env (Except.error e)).client.out =
        pst.client.out ++ str "HTTP/1.1 400 Bad Request\r\n\r\nBad Request" ∧
      (Proxy.handleClientRequest pst serverURL env (Except.error e)).client.closed = true ∧
      (Proxy.handleClientRequest pst serverURL env (Except.error e)).up = pst.up ∧
      ((Proxy.handleClientRequest pst serverURL env (Except.error e)).log = pst.log ↔
        e = ReadErr.EOF)) := by
  constructor
  · refine ⟨_, rfl, ?_, rfl, ?_, ?_, ?_⟩
    · cases e
      · have h := (Server.sendErrorResponse_out st StatusBadRequest (str "Bad Request") hc hb).1
        simpa [badRequest_bytes] using h
      · have h := (Server.sendErrorResponse_out (st.print LogMsg.errorReadingRequest)
          StatusBadRequest (str "Bad Request") hc hb).1
        simpa [badRequest_bytes, St.print] using h
    · simp only [Server.sendErrorResponse_ops]
      cases e <;> simp [St.print]
    · simp only [Server.sendErrorResponse_fs]
      cases e <;> simp [St.print]
    · cases e
      · have h := (Server.sendErrorResponse_out st StatusBadRequest (str "Bad Request") hc hb).2.2
        simpa using h
      · have h := (Server.sendErrorResponse_out (st.print LogMsg.errorReadingRequest)
          StatusBadRequest (str "Bad Request") hc hb).2.2
        simp only [ne_eq, not_false_eq_true, if_true, reduceCtorEq, iff_false]
        rw [h]
        simp [St.print]
  · refine ⟨?_, rfl, ?_, ?_⟩
    · cases e
      · have h := (Proxy.sendErrorResponse_delivers pst StatusBadRequest (str "Bad Request") hpc hpb).1
        simpa [Proxy.handleClientRequest, badRequest_bytes] using h
      · have h := (Proxy.sendErrorResponse_delivers (pst.print LogMsg.errorReadingRequestFromClient)
          StatusBadRequest (str "Bad Request") hpc hpb).1
        simpa [Proxy.handleClientRequest, badRequest_bytes, Proxy.PSt.print] using h
    · simp only [Proxy.handleClientRequest, Proxy.sendErrorResponse_up]
      cases e <;> simp [Proxy.PSt.print]
    · cases e
      · have h := (Proxy.sendErrorResponse_delivers pst StatusBadRequest (str "Bad Request") hpc hpb).2
        simpa [Proxy.handleClientRequest] using h
      · have h := (Proxy.sendErrorResponse_delivers (pst.print LogMsg.errorReadingRequestFromClient)
          StatusBadRequest (str "Bad Request") hpc hpb).2
        simp only [Proxy.handleClientRequest, ne_eq, not_false_eq_true, if_true, reduceCtorEq,
          iff_false]
        rw [h]
        simp [Proxy.PSt.print]

/-- Witness of C5 as amended: a read that fails with io.EOF on fresh connections. -/
theorem read_failure_is_answered_with_400_witness :
    idleSt.conn.closed = false ∧ 0 < idleSt.conn.budget ∧
    Proxy.idlePSt.client.closed = false ∧ 0 < Proxy.idlePSt.client.budget ∧
    (∃ st1, Server.handleRequest idleSt (Except.error ReadErr.EOF) = some st1 ∧
      st1.conn.out = idleSt.conn.out ++ str "HTTP/1.1 400 Bad Request\r\n\r\nBad Request" ∧
      st1.conn.closed = true ∧ st1.ops = idleSt.ops ∧ st1.fs = idleSt.fs ∧
      (st1.log = idleSt.log ↔ ReadErr.EOF = ReadErr.EOF)) :=
  ⟨rfl, by decide, rfl, by decide,
    (read_failure_is_answered_with_400 idleSt Proxy.idlePSt (str "localhost:8080")
      Proxy.deadUpstream ReadErr.EOF rfl (by decide) rfl (by decide)).1⟩

/-! ## The method gate of the proxy -/

theorem Proxy.relay_delivers_first_part (pieces : List GoString) :
    ∀ c : Conn, ∃ d tail, (Proxy.relay c pieces).out = c.out ++ d ∧
      d ++ tail = pieces.flatten := by
  induction pieces with
  | nil =>
    intro c
    exact ⟨[], [], by simp [Proxy.relay], rfl⟩
  | cons piece rest ih =>
    intro c
    simp only [Proxy.relay]
    by_cases hw : c.closed = false ∧ 0 < c.budget
    · have hW : c.Write piece =
          ({ c with out := c.out ++ piece, budget := c.budget - 1 }, true) :=
        Conn.Write_ok c piece hw.1 hw.2
      rw [hW]
      simp only [if_true]
      obtain ⟨d, tail, h1, h2⟩ := ih { c with out := c.out ++ piece, budget := c.budget - 1 }
      exact ⟨piece ++ d, tail, by rw [h1]; simp, by simp [h2]⟩
    · by_cases hc : c.closed = false
      · have hW : c.Write piece =
            ({ c with out := c.out ++ piece.take c.slack, slack := 0 }, false) := by
          have hb0 : c.budget = 0 := by
            by_contra hne
            exact hw ⟨hc, Nat.pos_of_ne_zero hne⟩
          simp [Conn.Write, hc, hb0]
        rw [hW]
        exact ⟨piece.take c.slack, piece.drop c.slack ++ rest.flatten, by simp,
          by rw [← List.append_assoc, List.take_append_drop]; simp⟩
      · have hW : c.Write piece = (c, false) := by
          simp [Conn.Write, hc]
        rw [hW]
        exact ⟨[], piece ++ rest.flatten, by simp, by simp⟩

theorem Proxy.relay_delivers_all (pieces : List GoString) :
    ∀ c : Conn, c.closed = false → pieces.length ≤ c.budget →
      (Proxy.relay c pieces).out = c.out ++ pieces.flatten := by
  induction pieces with
  | nil =>
    intro c _ _
    simp [Proxy.relay]
  | cons piece rest ih =>
    intro c hc hb
    simp only [List.length_cons] at hb
    have hW : c.Write piece =
        ({ c with out := c.out ++ piece, budget := c.budget - 1 }, true) :=
      Conn.Write_ok c piece hc (by omega)
    simp only [Proxy.relay, hW, if_true]
    rw [ih { c with out := c.out ++ piece, budget := c.budget - 1 } hc
      (by show rest.length ≤ c.budget - 1; omega)]
    simp

theorem Proxy.handleGetRequest_dials (st : Proxy.PSt) (req : Request) (serverURL : GoString)
    (env : Proxy.Upstream) :
    (∃ rest, (Proxy.handleGetRequest st req serverURL env).up =
        st.up ++ Proxy.UpOp.dial serverURL env.dialOk :: rest) ∧
      (∃ d tail, (Proxy.handleGetRequest st req serverURL env).client.out = st.client.out ++ d ∧
        d ++ tail = (env.response.getD []).flatten) ∧
      (env.dialOk = false →
        (Proxy.handleGetRequest st req serverURL env).client.out = st.client.out) ∧
      (∀ pieces, env.dialOk = true → env.writeOk = true → env.response = some pieces →
        st.client.closed = false → pieces.length ≤ st.client.budget →
        (Proxy.handleGetRequest st req serverURL env).client.out =
          st.client.out ++ pieces.flatten) := by
  unfold Proxy.handleGetRequest
  cases hd : env.dialOk with
  | false =>
    exact ⟨⟨[], by simp [Proxy.PSt.call, Proxy.PSt.print]⟩,
      ⟨[], (env.response.getD []).flatten, by simp [Proxy.PSt.call, Proxy.PSt.print], rfl⟩,
      fun _ => rfl, fun _ h => by simp at h⟩
  | true =>
    cases hw : env.writeOk with
    | false =>
      exact ⟨⟨_, by simp [Proxy.PSt.call, Proxy.PSt.print]; rfl⟩,
        ⟨[], (env.response.getD []).flatten, by simp [Proxy.PSt.call, Proxy.PSt.print], rfl⟩,
        fun h => by simp at h, fun _ _ h => by simp at h⟩
    | true =>
      cases hr : env.response with
      | none =>
        exact ⟨⟨_, by simp [Proxy.PSt.call, Proxy.PSt.print]; rfl⟩,
          ⟨[], [], by simp [Proxy.PSt.call, Proxy.PSt.print], rfl⟩,
          fun h => by simp at h, fun _ _ _ h => by simp at h⟩
      | some resp =>
        refine ⟨⟨_, by simp [Proxy.PSt.call, Proxy.PSt.print]; rfl⟩, ?_,
          fun h => by simp at h, ?_⟩
        · obtain ⟨d, tail, h1, h2⟩ := Proxy.relay_delivers_first_part resp st.client
          exact ⟨d, tail, by simpa [Proxy.PSt.call] using h1, by simpa using h2⟩
        · intro pieces _ _ hp hc hb
          simp only [Option.some.injEq] at hp
          subst hp
          simpa [Proxy.PSt.call] using Proxy.relay_delivers_all resp st.client hc hb

/-- C7. Proxy method gate: for a parsed request whose method is not exactly "GET",
handleClientRequest makes no call on the upstream (no dial, no write) and, on a client
connection that takes the write, delivers exactly "HTTP/1.1 501 Not Implemented", an empty
line and "Not Implemented". For the method "GET" its first upstream call is the dial of the
configured address, and it writes no 501 of its own: whatever the client receives is a first
part, possibly empty and possibly all, of the response that the upstream sent; nothing is
delivered when the dial fails, and the whole response is delivered when the upstream
exchange succeeds and no write to the client fails. -/
theorem proxy_method_gate (st : Proxy.PSt) (serverURL : GoString) (env : Proxy.Upstream)
    (req : Request) :
    (req.Method ≠ str "GET" →
      (Proxy.handleClientRequest st serverURL env (Except.ok req)).up = st.up ∧
      (st.client.closed = false → 0 < st.client.budget →
        (Proxy.handleClientRequest st serverURL env (Except.ok req)).client.out =
          st.client.out ++ str "HTTP/1.1 501 Not Implemented\r\n\r\nNot Implemented")) ∧
    (req.Method = str "GET" →
      (∃ rest, (Proxy.handleClientRequest st serverURL env (Except.ok req)).up =
        st.up ++ Proxy.UpOp.dial serverURL env.dialOk :: rest) ∧
      (∃ d tail, (Proxy.handleClientRequest st serverURL env (Except.ok req)).client.out =
          st.client.out ++ d ∧ d ++ tail = (env.response.getD []).flatten) ∧
      (env.dialOk = false →
        (Proxy.handleClientRequest st serverURL env (Except.ok req)).client.out =
          st.client.out) ∧
      (∀ pieces, env.dialOk = true → env.writeOk = true → env.response = some pieces →
        st.client.closed = false → pieces.length ≤ st.client.budget →
        (Proxy.handleClientRequest st serverURL env (Except.ok req)).client.out =
          st.client.out ++ pieces.flatten)) := by
  constructor
  · intro hm
    have hm2 : req.Method ≠ MethodGet := hm
    constructor
    · simp only [Proxy.handleClientRequest, hm2, ne_eq, not_false_eq_true, if_true,
        Proxy.sendErrorResponse_up]
    · intro hc hb
      have h := (Proxy.sendErrorResponse_delivers st StatusNotImplemented
        (str "Not Implemented") hc hb).1
      simpa [Proxy.handleClientRequest, hm2, notImplemented_bytes] using h
  · intro hm
    have hm2 : req.Method = MethodGet := hm
    have h := Proxy.handleGetRequest_dials st req serverURL env
    simpa [Proxy.handleClientRequest, hm2, Conn.Close] using h

/-- Witness of C7: a POST received by the proxy on a fresh client connection, and a GET
whose client breaks while the response is relayed, having received the status line and the
first four bytes of the header line. -/
theorem proxy_method_gate_witness :
    postHello.Method ≠ str "GET" ∧ Proxy.idlePSt.client.closed = false ∧
    0 < Proxy.idlePSt.client.budget ∧
    (Proxy.handleClientRequest Proxy.idlePSt (str "localhost:8080") Proxy.deadUpstream
      (Except.ok postHello)).up = Proxy.idlePSt.up ∧
    (Proxy.handleClientRequest Proxy.idlePSt (str "localhost:8080") Proxy.deadUpstream
      (Except.ok postHello)).client.out =
      Proxy.idlePSt.client.out ++ str "HTTP/1.1 501 Not Implemented\r\n\r\nNot Implemented" ∧
    Proxy.proxyGet.Method = str "GET" ∧
    (Proxy.handleClientRequest Proxy.breakingPSt (str "localhost:8080") Proxy.liveUpstream
      (Except.ok Proxy.proxyGet)).client.out = str "HTTP/1.1 200 OK\r\nCont" ∧
    (∃ d tail, (Proxy.handleClientRequest Proxy.breakingPSt (str "localhost:8080")
        Proxy.liveUpstream (Except.ok Proxy.proxyGet)).client.out =
          Proxy.breakingPSt.client.out ++ d ∧
        d ++ tail = (Proxy.liveUpstream.response.getD []).flatten) ∧
    (Proxy.handleClientRequest Proxy.idlePSt (str "localhost:8080") Proxy.liveUpstream
      (Except.ok Proxy.proxyGet)).client.out =
      Proxy.idlePSt.client.out ++
        [str "HTTP/1.1 200 OK\r\n", str "Content-Length: 5\r\n", str "\r\n",
          str "hello"].flatten :=
  ⟨by decide, rfl, by decide,
    ((proxy_method_gate Proxy.idlePSt (str "localhost:8080") Proxy.deadUpstream postHello).1
      (by decide)).1,
    ((proxy_method_gate Proxy.idlePSt (str "localhost:8080") Proxy.deadUpstream postHello).1
      (by decide)).2 rfl (by decide),
    by decide, by decide,
    ((proxy_method_gate Proxy.breakingPSt (str "localhost:8080") Proxy.liveUpstream
      Proxy.proxyGet).2 (by decide)).2.1,
    ((proxy_method_gate Proxy.idlePSt (str "localhost:8080") Proxy.liveUpstream
      Proxy.proxyGet).2 (by decide)).2.2.2 _ rfl rfl rfl rfl (by decide)⟩

/-! ## The listener loops -/

theorem Server.step_invariant (s s1 : Server.Listener) (e : Server.Event)
    (hs : Server.step s e = some s1)
    (hinv : s.sem ≤ Server.maxConnection ∧
      s.handling + s.returned + (if s.pc = Server.Pc.spawn then 1 else 0) = s.sem) :
    s1.sem ≤ Server.maxConnection ∧
      s1.handling + s1.returned + (if s1.pc = Server.Pc.spawn then 1 else 0) = s1.sem := by
  obtain ⟨h1, h2⟩ := hinv
  cases e <;> simp only [Server.step] at hs <;> split_ifs at hs with hcnd <;> cases hs <;>
    simp_all <;> omega

theorem Server.run_invariant (evs : List Server.Event) :
    ∀ s s1 : Server.Listener, Server.run s evs = some s1 →
      (s.sem ≤ Server.maxConnection ∧
        s.handling + s.returned + (if s.pc = Server.Pc.spawn then 1 else 0) = s.sem) →
      s1.sem ≤ Server.maxConnection ∧
        s1.handling + s1.returned + (if s1.pc = Server.Pc.spawn then 1 else 0) = s1.sem := by
  induction evs with
  | nil =>
    intro s s1 h hinv
    simp only [Server.run, Option.some.injEq] at h
    subst h
    exact hinv
  | cons e es ih =>
    intro s s1 h hinv
    simp only [Server.run] at h
    cases hstep : Server.step s e with
    | none => simp [hstep] at h
    | some s2 =>
      rw [hstep] at h
      exact ih s2 s1 h (Server.step_invariant s s2 e hstep hinv)

/-- C4. Admission invariant of the listener loop of the file server. In every state
reachable from the start (empty channel, no goroutine) the slots held are at most
maxConnection = 10; every goroutine started and not yet past its receive holds one slot
(slots held = handlers inside handleRequest + handlers returned and not yet released + the
slot acquired for a handler about to be spawned), so at most 10 handlers run; and the
acquire step is not enabled while 10 slots are held. -/
theorem server_admission_invariant (evs : List Server.Event) (s : Server.Listener)
    (h : Server.run Server.init evs = some s) :
    Server.maxConnection = 10 ∧ s.sem ≤ 10 ∧
    s.handling + s.returned + (if s.pc = Server.Pc.spawn then 1 else 0) = s.sem ∧
    s.handling + s.returned ≤ 10 ∧
    (s.sem = 10 → Server.step s Server.Event.acquire = none) := by
  have hinv := Server.run_invariant evs Server.init s h ⟨by decide, by decide⟩
  have hmax : Server.maxConnection = 10 := rfl
  rw [hmax] at hinv
  refine ⟨rfl, hinv.1, hinv.2, ?_, ?_⟩
  · have := hinv.2
    omega
  · intro h10
    simp [Server.step, h10, hmax]

/-- Witness of C4: ten connections admitted and an eleventh accepted, waiting for a slot. -/
theorem server_admission_invariant_witness :
    Server.run Server.init (Server.dispatchMany 10 ++ [Server.Event.acceptOk]) =
      some { pc := Server.Pc.acquire, sem := 10, handling := 10, returned := 0 } ∧
    Server.step { pc := Server.Pc.acquire, sem := 10, handling := 10, returned := 0 }
      Server.Event.acquire = none :=
  ⟨by decide,
    (server_admission_invariant (Server.dispatchMany 10 ++ [Server.Event.acceptOk])
      { pc := Server.Pc.acquire, sem := 10, handling := 10, returned := 0 } (by decide)).2.2.2.2
      rfl⟩

theorem Proxy.run_acceptMany (n : Nat) :
    ∀ k : Nat, Proxy.run { pc := Proxy.Pc.accept, handling := k } (Proxy.acceptMany n) =
      some { pc := Proxy.Pc.accept, handling := k + n } := by
  induction n with
  | zero => intro k; rfl
  | succ n ih =>
    intro k
    have h := ih (k + 1)
    have e : k + 1 + n = k + (n + 1) := by omega
    rw [e] at h
    simpa [Proxy.acceptMany, Proxy.run, Proxy.step] using h

/-- C6, refuted at a concrete input: after eleven connections are accepted in a row the
proxy runs eleven handlers at once, more than the pool size 10 of the server. -/
theorem proxy_runs_eleven_handlers :
    Proxy.run Proxy.init (Proxy.acceptMany 11) =
      some { pc := Proxy.Pc.accept, handling := 11 } ∧ ¬ (11 ≤ Server.maxConnection) := by
  decide

/-- C6, amended. The listener loop of the proxy has no admission control: a handler is
started for every accepted connection at once, no step of the loop waits for a slot, and
the number of handlers running at once is not bounded: for every n, accepting n
connections in a row leaves n handlers running. -/
theorem proxy_handlers_unbounded (n : Nat) :
    Proxy.run Proxy.init (Proxy.acceptMany n) =
      some { pc := Proxy.Pc.accept, handling := n } ∧
    (∀ s : Proxy.Listener, s.pc = Proxy.Pc.accept → Proxy.step s Proxy.Event.acceptOk ≠ none) ∧
    (∀ s : Proxy.Listener, s.pc = Proxy.Pc.spawn → Proxy.step s Proxy.Event.spawn ≠ none) := by
  refine ⟨?_, ?_, ?_⟩
  · have h := Proxy.run_acceptMany n 0
    simpa [Proxy.init] using h
  · intro s hs
    simp [Proxy.step, hs]
  · intro s hs
    simp [Proxy.step, hs]

/-- Witness of C6 as amended: from the start the loop of the proxy can accept, and eleven
connections accepted in a row leave eleven handlers running. -/
theorem proxy_handlers_unbounded_witness :
    Proxy.init.pc = Proxy.Pc.accept ∧
    Proxy.step Proxy.init Proxy.Event.acceptOk ≠ none ∧
    Proxy.run Proxy.init (Proxy.acceptMany 11) =
      some { pc := Proxy.Pc.accept, handling := 11 } :=
  ⟨rfl, (proxy_handlers_unbounded 11).2.1 Proxy.init rfl, (proxy_handlers_unbounded 11).1⟩
